import Mathlib

/-!
Verification of the rtc_sync_pi firmware core (Raspberry Pi Pico W NTP/RTC
sync jig).  The definitions below are a shallow embedding of the C++ source
`rtc_sync_pi.ino.c`: the EEPROM credential store (`e2p_*`), the NTP
time-fetch client (`send_ntp_packet`, `get_ntp_time`) and the sync
orchestrator (`rtc_and_ntp_sync`).  Machine integers are modelled as `Nat`
with explicit reductions modulo `2 ^ 32` (uint32) and `256` (uint8) at the
points where the C types enforce them.  Hardware and network effects are
modelled by explicit oracles: a per-address I2C write-success oracle for the
EEPROM, a WiFi-status-over-time function for association polling, and the
finite list of datagrams seen by the UDP polling loop before its deadline.
-/

namespace RtcSyncPi

/-! ## Constants (source: `#define` block, lines 26-39) -/

/-- WiFi association timeout in ms (`WIFI_CONNECT_TIMEOUT_MS`, line 26). -/
def WIFI_CONNECT_TIMEOUT_MS : Nat := 30000

/-- WiFi association polling interval in ms (`WIFI_POLL_DELAY_MS`, line 27). -/
def WIFI_POLL_DELAY_MS : Nat := 100

/-- NTP datagram size in bytes (`NTP_PACKET_SIZE`, line 28). -/
def NTP_PACKET_SIZE : Nat := 48

/-- Local UDP port used by the client (`NTP_LOCAL_PORT`, line 29). -/
def NTP_LOCAL_PORT : Nat := 2390

/-- Default `get_ntp_time` timeout in ms (`NTP_TIMEOUT_MS`, line 31). -/
def NTP_TIMEOUT_MS : Nat := 5000

/-- Seconds between 1900-01-01 and 1970-01-01 (`SEC_1970_TO_1900`, line 32). -/
def SEC_1970_TO_1900 : Nat := 2208988800

/-- JST offset from UTC in seconds (`JST_UTC_OFFSET_SEC`, line 33). -/
def JST_UTC_OFFSET_SEC : Nat := 9 * 3600

/-- EEPROM page size in bytes (`E2P_PAGE_BYTE_SIZE`, line 36). -/
def E2P_PAGE_BYTE_SIZE : Nat := 32

/-- Length of the WiFi-config marker comparison (`E2P_WIFI_CONFIG_MAKER_LEN`,
line 37): 30 bytes, the 29 marker characters plus the terminating NUL. -/
def E2P_WIFI_CONFIG_MAKER_LEN : Nat := 30

/-- Modulus of C `uint32_t` arithmetic. -/
def U32 : Nat := 2 ^ 32

/-- The marker string literal `p_e2p_wifi_config_maker` (line 46). -/
def p_e2p_wifi_config_maker : String := "WIFI_CONFIG_SSID_AND_PASSWORD"

/-- The marker as it sits in memory: the 29 ASCII character codes followed by
the terminating NUL byte, 30 bytes in total. -/
def marker_cstr : List Nat := (p_e2p_wifi_config_maker.toList.map Char.toNat) ++ [0]

/-! ## Credential store (EEPROM 24C32) -/

/-- Byte-addressed EEPROM contents. -/
def Mem : Type := Nat → Nat

/-- Point update of the EEPROM contents. -/
def upd (mem : Mem) (a v : Nat) : Mem := fun x => if x = a then v else mem x

/-- Result of a (possibly failing) EEPROM write: the reported flag, the
resulting memory, and the byte addresses whose I2C write transaction was
attempted, in order. -/
structure WRes where
  ok : Bool
  mem : Mem
  addrs : List Nat

/-- Shallow embedding of `e2p_write_byte` (lines 72-86): writes `data`
byte-by-byte at ascending addresses starting at `memAddr`; the oracle `wok`
gives the outcome of the I2C transaction at each address
(`Wire.endTransmission() == 0`).  A failing transaction aborts the loop at
once (`return false`); bytes already written stay written, the failed byte is
not stored.  Each stored value is reduced mod 256 (`uint8_t`).  The C
`memAddr` is `uint16_t`; every caller passes `pageNo * 32` with `pageNo ≤ 2`,
so the increment never wraps and plain `Nat` addresses are faithful. -/
def e2p_write_byte (wok : Nat → Bool) : Nat → List Nat → Mem → WRes
  | _, [], mem => ⟨true, mem, []⟩
  | a, d :: rest, mem =>
      if wok a then
        let r := e2p_write_byte wok (a + 1) rest (upd mem a (d % 256))
        ⟨r.ok, r.mem, a :: r.addrs⟩
      else ⟨false, mem, [a]⟩

/-- Shallow embedding of `e2p_write_page` (lines 110-114). -/
def e2p_write_page (wok : Nat → Bool) (pageNo : Nat) (buf32 : List Nat) (mem : Mem) : WRes :=
  e2p_write_byte wok (pageNo * E2P_PAGE_BYTE_SIZE) buf32 mem

/-- Shallow embedding of the success case of `e2p_read_page` (lines 104-108):
the 32 bytes of page `pageNo`.  The claims under verification all assume the
page reads themselves succeed, so the read-failure oracle is elided; values
are reduced mod 256 because the device returns bytes. -/
def e2p_read_page (mem : Mem) (pageNo : Nat) : List Nat :=
  (List.range E2P_PAGE_BYTE_SIZE).map (fun i => mem (pageNo * E2P_PAGE_BYTE_SIZE + i) % 256)

/-- The 32-byte page buffer built by `e2p_save_wifi_config` for the SSID and
password pages (lines 125-126, 132-133): a zeroed 32-byte buffer that
receives the first `min 31 (length data)` bytes of the value. -/
def pad_page (data : List Nat) : List Nat :=
  data.take 31 ++ List.replicate (E2P_PAGE_BYTE_SIZE - (data.take 31).length) 0

/-- Shallow embedding of `e2p_save_wifi_config` (lines 116-138): writes
page 0 (marker), then page 1 (SSID), then page 2 (password); a failed page
write returns `false` at once and leaves the remaining pages unwritten.
`j1 j2` model the two bytes the C code reads past the end of the 30-byte
marker string literal when it writes 32 bytes from it (an out-of-bounds read
whose values are unspecified); no claim depends on them.  The SSID and
password are byte lists (the bytes of the Arduino `String` arguments). -/
def e2p_save_wifi_config (wok : Nat → Bool) (j1 j2 : Nat) (ssid password : List Nat)
    (mem : Mem) : WRes :=
  let r0 := e2p_write_page wok 0 (marker_cstr ++ [j1, j2]) mem
  if r0.ok = false then ⟨false, r0.mem, r0.addrs⟩
  else
    let r1 := e2p_write_page wok 1 (pad_page ssid) r0.mem
    if r1.ok = false then ⟨false, r1.mem, r0.addrs ++ r1.addrs⟩
    else
      let r2 := e2p_write_page wok 2 (pad_page password) r1.mem
      ⟨r2.ok, r2.mem, r0.addrs ++ r1.addrs ++ r2.addrs⟩

/-- Semantics of `String((const char *)buf)` applied to a page buffer: the
bytes before the first NUL. -/
def cstr (buf : List Nat) : List Nat := buf.takeWhile (fun b => b != 0)

/-- The marker test of `e2p_check_wifi_config` (line 147):
`memcmp(tmp_page, p_e2p_wifi_config_maker, E2P_WIFI_CONFIG_MAKER_LEN) == 0`,
a comparison of exactly the first 30 bytes of page 0. -/
def has_credentials (page0 : List Nat) : Bool :=
  decide (page0.take E2P_WIFI_CONFIG_MAKER_LEN = marker_cstr)

/-- Shallow embedding of `e2p_check_wifi_config` (lines 140-165), with the
page reads assumed to succeed (see `e2p_read_page`): if the marker test on
page 0 fails the function reports absence; otherwise pages 1 and 2 are read,
their last byte is forced to NUL (line 154/161), and the SSID and password
are the C-string contents of those buffers. -/
def e2p_check_wifi_config (mem : Mem) : Option (List Nat × List Nat) :=
  if has_credentials (e2p_read_page mem 0) = false then none
  else
    let page1 := (e2p_read_page mem 1).set (E2P_PAGE_BYTE_SIZE - 1) 0
    let page2 := (e2p_read_page mem 2).set (E2P_PAGE_BYTE_SIZE - 1) 0
    some (cstr page1, cstr page2)

/-! ## NTP time-fetch client -/

/-- Byte `i` of a datagram, out-of-range reads defaulting to 0; the mod 256
records that datagram contents are `uint8_t`. -/
def packet_byte (p : List Nat) (i : Nat) : Nat := p.getD i 0 % 256

/-- The request datagram built by `send_ntp_packet` (lines 229-236):
`memset(s_packet_buf, 0, 48)` then `s_packet_buf[0] = 0xE3` (LI=3, VN=4,
Mode=3 client).  The server address does not influence the payload. -/
def send_ntp_packet (_address : String) : List Nat :=
  (List.replicate NTP_PACKET_SIZE 0).set 0 0xE3

/-- Big-endian decode of reply bytes 40-43 (lines 253-256), written with the
same shift/or structure as the C expression; all four operands are below
`2 ^ 32`, so the `uint32_t` casts never truncate. -/
def secsSince1900 (p : List Nat) : Nat :=
  (packet_byte p 40 <<< 24) ||| (packet_byte p 41 <<< 16) |||
    (packet_byte p 42 <<< 8) ||| packet_byte p 43

/-- The seconds value after the half-up rounding on reply byte 44
(lines 262-264): `secsSince1900++` is a `uint32_t` increment. -/
def rounded_secs (p : List Nat) : Nat :=
  if 0x80 ≤ packet_byte p 44 then (secsSince1900 p + 1) % U32 else secsSince1900 p

/-- The value stored into `result` (line 268): the `uint32_t` subtraction
`secsSince1900 - SEC_1970_TO_1900`, i.e. addition of the complement
mod `2 ^ 32`. -/
def ntp_epoch (p : List Nat) : Nat :=
  (rounded_secs p + (U32 - SEC_1970_TO_1900)) % U32

/-- Shallow embedding of the polling loop of `get_ntp_time` (lines 244-272).
`polls` is the finite sequence of `s_udp.parsePacket()` outcomes observed
before `millis() - start < timeout_ms` turns false (each element the pending
datagram, `[]` when none); the bounded window is what makes the sequence
finite.  `result0` is the caller's variable passed by reference: the pair
returned is (return value, final contents of `result`). -/
def get_ntp_time (result0 : Nat) : List (List Nat) → Bool × Nat
  | [] => (false, result0)
  | p :: rest =>
      if NTP_PACKET_SIZE ≤ p.length then (true, ntp_epoch p)
      else get_ntp_time result0 rest

/-- A 48-byte reply whose bytes 40-43 hold the big-endian value `0x83AA7E80`
and whose byte 44 is `b44`; all other bytes are zero.  Used to state the
concrete decode instances of the spec. -/
def ntp_test_packet (b44 : Nat) : List Nat :=
  List.replicate 40 0 ++ [0x83, 0xAA, 0x7E, 0x80, b44] ++ List.replicate 3 0

/-- Observable I/O actions of one `get_ntp_time` call. -/
inductive NtpAct where
  | actBegin (port : Nat)
  | actSend (server : String) (pkt : List Nat)
  | actPoll (size : Nat)
  | actRead (pkt : List Nat)
  deriving DecidableEq

/-- Actions of the polling loop: each iteration calls `parsePacket` and, on a
datagram of at least 48 bytes, reads it and leaves the loop; the loop body
never sends. -/
def ntp_poll_acts : List (List Nat) → List NtpAct
  | [] => []
  | p :: rest =>
      NtpAct.actPoll p.length ::
        (if NTP_PACKET_SIZE ≤ p.length then [NtpAct.actRead p] else ntp_poll_acts rest)

/-- Full action sequence of `get_ntp_time` (lines 238-274): open the local
UDP endpoint, send exactly one request via `send_ntp_packet`, then poll. -/
def get_ntp_time_acts (server : String) (polls : List (List Nat)) : List NtpAct :=
  NtpAct.actBegin NTP_LOCAL_PORT :: NtpAct.actSend server (send_ntp_packet server) ::
    ntp_poll_acts polls

/-- Recogniser for request-send actions. -/
def isSendAct : NtpAct → Bool
  | NtpAct.actSend _ _ => true
  | _ => false

/-! ## Sync orchestrator -/

/-- Environment of one sync attempt: the WiFi association status
(`WiFi.status() == WL_CONNECTED`) as a function of milliseconds elapsed since
`WiFi.begin`, and the datagrams the NTP polling loop sees. -/
structure SyncEnv where
  statusAt : Nat → Bool
  polls : List (List Nat)

/-- Observable actions of one `rtc_and_ntp_sync` call. -/
inductive SyncEv where
  | evWifiBegin
  | evNtpFetch
  | evRtcAdjust (epochJst : Nat)
  | evWifiDisconnect
  deriving DecidableEq

/-- The association polling loop of `rtc_and_ntp_sync` (lines 182-196):
while not connected, delay `WIFI_POLL_DELAY_MS` and break with the timeout
flag set once `millis() - wait_time_ms > WIFI_CONNECT_TIMEOUT_MS`.  Status is
sampled at elapsed times 0, 100, ..., 30000; the loop leaves at the latest
with elapsed time 30100.  Returns (timeout flag, elapsed ms at loop exit). -/
def wifi_wait (statusAt : Nat → Bool) (elapsed : Nat) : Bool × Nat :=
  if statusAt elapsed then (false, elapsed)
  else if WIFI_CONNECT_TIMEOUT_MS < elapsed + WIFI_POLL_DELAY_MS then
    (true, elapsed + WIFI_POLL_DELAY_MS)
  else wifi_wait statusAt (elapsed + WIFI_POLL_DELAY_MS)
termination_by WIFI_CONNECT_TIMEOUT_MS + WIFI_POLL_DELAY_MS - elapsed
decreasing_by simp only [WIFI_CONNECT_TIMEOUT_MS, WIFI_POLL_DELAY_MS] at *; omega

/-- Shallow embedding of `rtc_and_ntp_sync` (lines 167-227): begin WiFi,
poll association with the 30 s timeout, and—unless the timeout flag was
set—re-check the status; when connected, run `get_ntp_time` with
`NTP_TIMEOUT_MS`, on success write `epoch + JST_UTC_OFFSET_SEC` (uint32 add)
to the RTC, and in either case disconnect WiFi before returning.  `epoch0`
models the arbitrary initial contents of the stack variable `epoch`.
Returns (`ret`, action sequence). -/
def rtc_and_ntp_sync (env : SyncEnv) (epoch0 : Nat) : Bool × List SyncEv :=
  let w := wifi_wait env.statusAt 0
  if w.1 = true then (false, [SyncEv.evWifiBegin])
  else if env.statusAt w.2 = true then
    let r := get_ntp_time epoch0 env.polls
    if r.1 = true then
      (true, [SyncEv.evWifiBegin, SyncEv.evNtpFetch,
              SyncEv.evRtcAdjust ((r.2 + JST_UTC_OFFSET_SEC) % U32), SyncEv.evWifiDisconnect])
    else
      (false, [SyncEv.evWifiBegin, SyncEv.evNtpFetch, SyncEv.evWifiDisconnect])
  else (false, [SyncEv.evWifiBegin])

/-! ## Helper lemmas -/

theorem packet_byte_lt (p : List Nat) (i : Nat) : packet_byte p i < 256 :=
  Nat.mod_lt _ (by norm_num)

theorem or_shift_add (x y k : Nat) (hy : y < 2 ^ k) : (x <<< k) ||| y = x * 2 ^ k + y := by
  rw [Nat.shiftLeft_eq, Nat.mul_comm]
  exact (Nat.mul_add_lt_is_or hy x).symm

theorem secsSince1900_eq_add (p : List Nat) :
    secsSince1900 p
      = packet_byte p 40 * 2 ^ 24 + packet_byte p 41 * 2 ^ 16
        + packet_byte p 42 * 2 ^ 8 + packet_byte p 43 := by
  have h41 := packet_byte_lt p 41
  have h42 := packet_byte_lt p 42
  have h43 := packet_byte_lt p 43
  have e1 : (packet_byte p 42 <<< 8) ||| packet_byte p 43
      = packet_byte p 42 * 2 ^ 8 + packet_byte p 43 :=
    or_shift_add _ _ 8 (by norm_num; omega)
  have e2 : (packet_byte p 41 <<< 16) ||| (packet_byte p 42 * 2 ^ 8 + packet_byte p 43)
      = packet_byte p 41 * 2 ^ 16 + (packet_byte p 42 * 2 ^ 8 + packet_byte p 43) :=
    or_shift_add _ _ 16 (by norm_num; omega)
  have e3 : (packet_byte p 40 <<< 24) |||
        (packet_byte p 41 * 2 ^ 16 + (packet_byte p 42 * 2 ^ 8 + packet_byte p 43))
      = packet_byte p 40 * 2 ^ 24
        + (packet_byte p 41 * 2 ^ 16 + (packet_byte p 42 * 2 ^ 8 + packet_byte p 43)) :=
    or_shift_add _ _ 24 (by norm_num; omega)
  unfold secsSince1900
  rw [Nat.lor_assoc, Nat.lor_assoc, e1, e2, e3]
  ring

theorem secsSince1900_lt (p : List Nat) : secsSince1900 p < U32 := by
  rw [secsSince1900_eq_add]
  have h40 := packet_byte_lt p 40
  have h41 := packet_byte_lt p 41
  have h42 := packet_byte_lt p 42
  have h43 := packet_byte_lt p 43
  unfold U32
  norm_num
  omega

theorem rounded_secs_lt (p : List Nat) : rounded_secs p < U32 := by
  unfold rounded_secs
  split
  · exact Nat.mod_lt _ (by norm_num [U32])
  · exact secsSince1900_lt p

theorem get_ntp_time_accept (r0 : Nat) (p : List Nat) (h : NTP_PACKET_SIZE ≤ p.length) :
    get_ntp_time r0 [p] = (true, ntp_epoch p) := by
  simp [get_ntp_time, h]

theorem ntp_poll_acts_no_send : ∀ polls : List (List Nat),
    (ntp_poll_acts polls).countP isSendAct = 0 := by
  intro polls
  induction polls with
  | nil => rfl
  | cons p rest ih =>
      simp only [ntp_poll_acts, List.countP_cons]
      split
      · simp [isSendAct]
      · simp [isSendAct, ih]

theorem getD_replicate_zero (n j : Nat) : (List.replicate n (0 : Nat)).getD j 0 = 0 := by
  rw [List.getD_eq_getElem?_getD, List.getElem?_replicate]
  split <;> rfl

theorem get_ntp_time_timeout (result0 : Nat) :
    ∀ polls : List (List Nat), (∀ p ∈ polls, p.length < NTP_PACKET_SIZE) →
      get_ntp_time result0 polls = (false, result0) := by
  intro polls
  induction polls with
  | nil => intro _h; rfl
  | cons p rest ih =>
      intro h
      have hp : ¬ NTP_PACKET_SIZE ≤ p.length := by
        have := h p (by simp)
        omega
      rw [get_ntp_time, if_neg hp]
      exact ih (fun q hq => h q (by simp [hq]))

theorem wifi_wait_timeout_of (statusAt : Nat → Bool)
    (h : ∀ t, t ≤ WIFI_CONNECT_TIMEOUT_MS → statusAt t = false) :
    ∀ n e, WIFI_CONNECT_TIMEOUT_MS - e ≤ n → e ≤ WIFI_CONNECT_TIMEOUT_MS →
      (wifi_wait statusAt e).1 = true := by
  intro n
  induction n with
  | zero =>
      intro e h1 h2
      rw [wifi_wait, h e h2]
      rw [if_neg (by simp)]
      rw [if_pos (by simp only [WIFI_CONNECT_TIMEOUT_MS, WIFI_POLL_DELAY_MS] at *; omega)]
  | succ n ih =>
      intro e h1 h2
      rw [wifi_wait, h e h2]
      rw [if_neg (by simp)]
      by_cases hc : WIFI_CONNECT_TIMEOUT_MS < e + WIFI_POLL_DELAY_MS
      · rw [if_pos hc]
      · rw [if_neg hc]
        exact ih (e + WIFI_POLL_DELAY_MS)
          (by simp only [WIFI_CONNECT_TIMEOUT_MS, WIFI_POLL_DELAY_MS] at *; omega)
          (by omega)

theorem e2p_write_byte_ok_iff (wok : Nat → Bool) :
    ∀ (data : List Nat) (a : Nat) (mem : Mem),
      (e2p_write_byte wok a data mem).ok = true
        ↔ ∀ i, i < data.length → wok (a + i) = true := by
  intro data
  induction data with
  | nil => intro a mem; simp [e2p_write_byte]
  | cons d rest ih =>
      intro a mem
      by_cases hw : wok a = true
      · simp only [e2p_write_byte, hw, if_true, ih (a + 1)]
        constructor
        · intro hok i hi
          cases i with
          | zero => simpa using hw
          | succ j =>
              have hj : a + (j + 1) = a + 1 + j := by omega
              rw [hj]
              exact hok j (by simpa using hi)
        · intro hall j hj
          have hj2 : a + 1 + j = a + (j + 1) := by omega
          rw [hj2]
          exact hall (j + 1) (by simpa using hj)
      · simp only [e2p_write_byte, hw, Bool.false_eq_true, if_false, false_iff]
        intro hall
        exact hw (by simpa using hall 0 (by simp))

theorem e2p_write_byte_mem_outside (wok : Nat → Bool) :
    ∀ (data : List Nat) (a : Nat) (mem : Mem) (x : Nat),
      (x < a ∨ a + data.length ≤ x) →
      (e2p_write_byte wok a data mem).mem x = mem x := by
  intro data
  induction data with
  | nil => intro a mem x _; rfl
  | cons d rest ih =>
      intro a mem x hx
      by_cases hw : wok a = true
      · simp only [e2p_write_byte, hw, if_true]
        have hrec := ih (a + 1) (upd mem a (d % 256)) x
          (by simp only [List.length_cons] at hx; omega)
        simp only [hrec, upd]
        rw [if_neg (by simp only [List.length_cons] at hx; omega)]
      · simp only [e2p_write_byte, hw, Bool.false_eq_true, if_false]

theorem e2p_write_byte_mem_ok (wok : Nat → Bool) :
    ∀ (data : List Nat) (a : Nat) (mem : Mem),
      (∀ i, i < data.length → wok (a + i) = true) →
      ∀ i, i < data.length →
        (e2p_write_byte wok a data mem).mem (a + i) = data.getD i 0 % 256 := by
  intro data
  induction data with
  | nil => intro a mem _ i hi; simp at hi
  | cons d rest ih =>
      intro a mem hall i hi
      have hw : wok a = true := by simpa using hall 0 (by simp)
      simp only [e2p_write_byte, hw, if_true]
      cases i with
      | zero =>
          have houts := e2p_write_byte_mem_outside wok rest (a + 1) (upd mem a (d % 256)) a
            (by omega)
          simp only [Nat.add_zero, houts, upd, if_pos rfl]
          rfl
      | succ j =>
          have hj : a + (j + 1) = a + 1 + j := by omega
          rw [hj]
          have := ih (a + 1) (upd mem a (d % 256))
            (fun k hk => by
              have h2 : a + 1 + k = a + (k + 1) := by omega
              rw [h2]
              exact hall (k + 1) (by simpa using hk))
            j (by simpa using hi)
          simpa using this

theorem e2p_write_byte_addrs_sub (wok : Nat → Bool) :
    ∀ (data : List Nat) (a : Nat) (mem : Mem) (x : Nat),
      x ∈ (e2p_write_byte wok a data mem).addrs → a ≤ x ∧ x < a + data.length := by
  intro data
  induction data with
  | nil => intro a mem x hx; simp [e2p_write_byte] at hx
  | cons d rest ih =>
      intro a mem x hx
      simp only [List.length_cons]
      by_cases hw : wok a = true
      · simp only [e2p_write_byte, hw, if_true, List.mem_cons] at hx
        rcases hx with hx | hx
        · omega
        · have := ih (a + 1) (upd mem a (d % 256)) x hx
          omega
      · simp only [e2p_write_byte, hw, Bool.false_eq_true, if_false,
          List.mem_singleton] at hx
        omega

theorem e2p_write_byte_addrs_ok (wok : Nat → Bool) :
    ∀ (data : List Nat) (a : Nat) (mem : Mem),
      (∀ i, i < data.length → wok (a + i) = true) →
      (e2p_write_byte wok a data mem).addrs = List.range' a data.length := by
  intro data
  induction data with
  | nil => intro a mem _; rfl
  | cons d rest ih =>
      intro a mem hall
      have hw : wok a = true := by simpa using hall 0 (by simp)
      simp only [e2p_write_byte, hw, if_true, List.length_cons]
      rw [ih (a + 1) (upd mem a (d % 256))
        (fun k hk => by
          have h2 : a + 1 + k = a + (k + 1) := by omega
          rw [h2]
          exact hall (k + 1) (by simpa using hk))]
      rfl

theorem pad_page_length (data : List Nat) : (pad_page data).length = E2P_PAGE_BYTE_SIZE := by
  have : (data.take 31).length ≤ 31 := by simp [List.length_take]
  simp only [pad_page, List.length_append, List.length_replicate, E2P_PAGE_BYTE_SIZE] at *
  omega

theorem pad_page_eq (data : List Nat) (h : data.length ≤ 31) :
    pad_page data = data ++ List.replicate (32 - data.length) 0 := by
  simp [pad_page, List.take_of_length_le h, E2P_PAGE_BYTE_SIZE]

theorem cstr_append_zeros (s : List Nat) (k : Nat) (hnz : ∀ b ∈ s, b ≠ 0) :
    cstr (s ++ List.replicate k 0) = s := by
  unfold cstr
  rw [List.takeWhile_append_of_pos (by intro a ha; simpa using hnz a ha)]
  rw [List.takeWhile_replicate]
  simp

theorem set_pad_last (s : List Nat) (h : s.length ≤ 31) :
    (s ++ List.replicate (32 - s.length) 0).set 31 0
      = s ++ List.replicate (32 - s.length) 0 := by
  apply List.ext_getElem
  · simp
  · intro i h1 h2
    rw [List.getElem_set]
    split
    · next heq =>
        subst heq
        rw [List.getElem_append_right (by omega)]
        simp
    · rfl

theorem e2p_read_page_of (mem : Mem) (pageNo : Nat) (buf : List Nat)
    (hlen : buf.length = E2P_PAGE_BYTE_SIZE) (hb : ∀ b ∈ buf, b < 256)
    (h : ∀ i, i < E2P_PAGE_BYTE_SIZE →
      mem (pageNo * E2P_PAGE_BYTE_SIZE + i) = buf.getD i 0 % 256) :
    e2p_read_page mem pageNo = buf := by
  apply List.ext_getElem
  · simp [e2p_read_page, hlen]
  · intro i h1 h2
    have hi : i < E2P_PAGE_BYTE_SIZE := by
      simpa [e2p_read_page] using h1
    simp only [e2p_read_page, List.getElem_map, List.getElem_range]
    rw [h i hi]
    have hgd : buf.getD i 0 = buf[i] := by
      rw [List.getD_eq_getElem?_getD, List.getElem?_eq_getElem h2]
      rfl
    rw [Nat.mod_mod_of_dvd _ (dvd_refl 256), hgd,
      Nat.mod_eq_of_lt (hb _ (List.getElem_mem h2))]

theorem e2p_write_page_0 (wok : Nat → Bool) (buf : List Nat) (m : Mem) :
    e2p_write_page wok 0 buf m = e2p_write_byte wok 0 buf m := by
  simp [e2p_write_page]

theorem e2p_write_page_1 (wok : Nat → Bool) (buf : List Nat) (m : Mem) :
    e2p_write_page wok 1 buf m = e2p_write_byte wok 32 buf m := by
  simp [e2p_write_page, E2P_PAGE_BYTE_SIZE]

theorem e2p_write_page_2 (wok : Nat → Bool) (buf : List Nat) (m : Mem) :
    e2p_write_page wok 2 buf m = e2p_write_byte wok 64 buf m := by
  simp [e2p_write_page, E2P_PAGE_BYTE_SIZE]

theorem save_eq_of_ok01 (wok : Nat → Bool) (j1 j2 : Nat) (ssid password : List Nat)
    (mem : Mem)
    (h0 : (e2p_write_byte wok 0 (marker_cstr ++ [j1, j2]) mem).ok = true)
    (h1 : (e2p_write_byte wok 32 (pad_page ssid)
        (e2p_write_byte wok 0 (marker_cstr ++ [j1, j2]) mem).mem).ok = true) :
    e2p_save_wifi_config wok j1 j2 ssid password mem
      = ⟨(e2p_write_byte wok 64 (pad_page password)
            (e2p_write_byte wok 32 (pad_page ssid)
              (e2p_write_byte wok 0 (marker_cstr ++ [j1, j2]) mem).mem).mem).ok,
         (e2p_write_byte wok 64 (pad_page password)
            (e2p_write_byte wok 32 (pad_page ssid)
              (e2p_write_byte wok 0 (marker_cstr ++ [j1, j2]) mem).mem).mem).mem,
         (e2p_write_byte wok 0 (marker_cstr ++ [j1, j2]) mem).addrs
           ++ (e2p_write_byte wok 32 (pad_page ssid)
                (e2p_write_byte wok 0 (marker_cstr ++ [j1, j2]) mem).mem).addrs
           ++ (e2p_write_byte wok 64 (pad_page password)
                (e2p_write_byte wok 32 (pad_page ssid)
                  (e2p_write_byte wok 0 (marker_cstr ++ [j1, j2]) mem).mem).mem).addrs⟩ := by
  simp [e2p_save_wifi_config, e2p_write_page_0, e2p_write_page_1, e2p_write_page_2, h0, h1]

theorem save_eq_of_fail0 (wok : Nat → Bool) (j1 j2 : Nat) (ssid password : List Nat)
    (mem : Mem)
    (h0 : (e2p_write_byte wok 0 (marker_cstr ++ [j1, j2]) mem).ok = false) :
    e2p_save_wifi_config wok j1 j2 ssid password mem
      = ⟨false, (e2p_write_byte wok 0 (marker_cstr ++ [j1, j2]) mem).mem,
         (e2p_write_byte wok 0 (marker_cstr ++ [j1, j2]) mem).addrs⟩ := by
  simp [e2p_save_wifi_config, e2p_write_page_0, h0]

theorem save_eq_of_fail1 (wok : Nat → Bool) (j1 j2 : Nat) (ssid password : List Nat)
    (mem : Mem)
    (h0 : (e2p_write_byte wok 0 (marker_cstr ++ [j1, j2]) mem).ok = true)
    (h1 : (e2p_write_byte wok 32 (pad_page ssid)
        (e2p_write_byte wok 0 (marker_cstr ++ [j1, j2]) mem).mem).ok = false) :
    e2p_save_wifi_config wok j1 j2 ssid password mem
      = ⟨false,
         (e2p_write_byte wok 32 (pad_page ssid)
            (e2p_write_byte wok 0 (marker_cstr ++ [j1, j2]) mem).mem).mem,
         (e2p_write_byte wok 0 (marker_cstr ++ [j1, j2]) mem).addrs
           ++ (e2p_write_byte wok 32 (pad_page ssid)
                (e2p_write_byte wok 0 (marker_cstr ++ [j1, j2]) mem).mem).addrs⟩ := by
  simp [e2p_save_wifi_config, e2p_write_page_0, e2p_write_page_1, h0, h1]

theorem marker_page_length (j1 j2 : Nat) : (marker_cstr ++ [j1, j2]).length = 32 := by
  have h : marker_cstr.length = 30 := by decide
  simp [h]

theorem readpage_take_marker (mem2 : Mem)
    (h : ∀ i, i < E2P_WIFI_CONFIG_MAKER_LEN → mem2 i % 256 = marker_cstr.getD i 0) :
    (e2p_read_page mem2 0).take E2P_WIFI_CONFIG_MAKER_LEN = marker_cstr := by
  have hmlen : marker_cstr.length = 30 := by decide
  have hrlen : (e2p_read_page mem2 0).length = 32 := by
    simp [e2p_read_page, E2P_PAGE_BYTE_SIZE]
  apply List.ext_getElem
  · rw [List.length_take, hrlen, hmlen]
    simp [E2P_WIFI_CONFIG_MAKER_LEN]
  · intro i h1 h2
    rw [List.getElem_take]
    have hi : i < 30 := by rw [hmlen] at h2; exact h2
    simp only [e2p_read_page, List.getElem_map, List.getElem_range]
    have h0 : 0 * E2P_PAGE_BYTE_SIZE + i = i := by simp
    rw [h0, h i (by simp only [E2P_WIFI_CONFIG_MAKER_LEN]; omega)]
    rw [List.getD_eq_getElem?_getD, List.getElem?_eq_getElem (by omega)]
    rfl

theorem e2p_read_page_congr_0 (mem mem' : Mem)
    (h : ∀ x, x < E2P_PAGE_BYTE_SIZE → mem x = mem' x) :
    e2p_read_page mem 0 = e2p_read_page mem' 0 := by
  apply List.ext_getElem
  · simp [e2p_read_page]
  · intro i h1 h2
    have hi : i < E2P_PAGE_BYTE_SIZE := by simpa [e2p_read_page] using h1
    simp only [e2p_read_page, List.getElem_map, List.getElem_range]
    rw [h _ (by simp only [E2P_PAGE_BYTE_SIZE] at *; omega)]

theorem check_isSome_eq (m : Mem) :
    (e2p_check_wifi_config m).isSome = has_credentials (e2p_read_page m 0) := by
  unfold e2p_check_wifi_config
  cases hc : has_credentials (e2p_read_page m 0) <;> simp [hc]

theorem save_allok (j1 j2 : Nat) (ssid password : List Nat) (mem : Mem) :
    (e2p_save_wifi_config (fun _a => true) j1 j2 ssid password mem).ok = true
    ∧ (∀ i, i < 32 →
        (e2p_save_wifi_config (fun _a => true) j1 j2 ssid password mem).mem i
          = (marker_cstr ++ [j1, j2]).getD i 0 % 256)
    ∧ (∀ i, i < 32 →
        (e2p_save_wifi_config (fun _a => true) j1 j2 ssid password mem).mem (32 + i)
          = (pad_page ssid).getD i 0 % 256)
    ∧ (∀ i, i < 32 →
        (e2p_save_wifi_config (fun _a => true) j1 j2 ssid password mem).mem (64 + i)
          = (pad_page password).getD i 0 % 256) := by
  have hd0 := marker_page_length j1 j2
  have hps : (pad_page ssid).length = 32 := pad_page_length ssid
  have hpp : (pad_page password).length = 32 := pad_page_length password
  have h0 : (e2p_write_byte (fun _a => true) 0 (marker_cstr ++ [j1, j2]) mem).ok = true :=
    (e2p_write_byte_ok_iff _ _ 0 mem).mpr (fun _ _ => rfl)
  have h1 : (e2p_write_byte (fun _a => true) 32 (pad_page ssid)
      (e2p_write_byte (fun _a => true) 0 (marker_cstr ++ [j1, j2]) mem).mem).ok = true :=
    (e2p_write_byte_ok_iff _ _ 32 _).mpr (fun _ _ => rfl)
  rw [save_eq_of_ok01 (fun _a => true) j1 j2 ssid password mem h0 h1]
  refine ⟨(e2p_write_byte_ok_iff _ _ 64 _).mpr (fun _ _ => rfl), ?_, ?_, ?_⟩
  · intro i hi
    show (e2p_write_byte (fun _a => true) 64 (pad_page password)
        (e2p_write_byte (fun _a => true) 32 (pad_page ssid)
          (e2p_write_byte (fun _a => true) 0 (marker_cstr ++ [j1, j2]) mem).mem).mem).mem i = _
    rw [e2p_write_byte_mem_outside _ _ 64 _ i (Or.inl (by omega))]
    rw [e2p_write_byte_mem_outside _ _ 32 _ i (Or.inl (by omega))]
    have := e2p_write_byte_mem_ok (fun _a => true) (marker_cstr ++ [j1, j2]) 0 mem
      (fun _ _ => rfl) i (by rw [hd0]; omega)
    simpa using this
  · intro i hi
    show (e2p_write_byte (fun _a => true) 64 (pad_page password)
        (e2p_write_byte (fun _a => true) 32 (pad_page ssid)
          (e2p_write_byte (fun _a => true) 0 (marker_cstr ++ [j1, j2]) mem).mem).mem).mem
        (32 + i) = _
    rw [e2p_write_byte_mem_outside _ _ 64 _ (32 + i) (Or.inl (by omega))]
    exact e2p_write_byte_mem_ok (fun _a => true) (pad_page ssid) 32 _
      (fun _ _ => rfl) i (by rw [hps]; omega)
  · intro i hi
    show (e2p_write_byte (fun _a => true) 64 (pad_page password)
        (e2p_write_byte (fun _a => true) 32 (pad_page ssid)
          (e2p_write_byte (fun _a => true) 0 (marker_cstr ++ [j1, j2]) mem).mem).mem).mem
        (64 + i) = _
    exact e2p_write_byte_mem_ok (fun _a => true) (pad_page password) 64 _
      (fun _ _ => rfl) i (by rw [hpp]; omega)

/-! ## Claim theorems -/

/-- C3: for every invocation of the time-fetch client, the request datagram
built by `send_ntp_packet` is 48 bytes long, its byte 0 is the protocol's
client-mode header byte `0xE3`, and every byte at indices 1 through 47 is
zero. -/
theorem claim_c3_request_packet (address : String) :
    (send_ntp_packet address).length = NTP_PACKET_SIZE
    ∧ (send_ntp_packet address).getD 0 0 = 0xE3
    ∧ ∀ i, 1 ≤ i → i < NTP_PACKET_SIZE → (send_ntp_packet address).getD i 0 = 0 := by
  refine ⟨rfl, rfl, ?_⟩
  intro i h1 h2
  have hrepr : send_ntp_packet address = 0xE3 :: List.replicate 47 0 := rfl
  rw [hrepr]
  cases i with
  | zero => omega
  | succ j =>
      rw [List.getD_cons_succ]
      exact getD_replicate_zero 47 j

/-- C3 witness: the packet built for the primary server has byte 0 = 0xE3 and
byte 5 = 0. -/
theorem claim_c3_request_packet_witness :
    (send_ntp_packet "ntp.nict.jp").getD 0 0 = 0xE3
    ∧ (send_ntp_packet "ntp.nict.jp").getD 5 0 = 0 :=
  ⟨(claim_c3_request_packet "ntp.nict.jp").2.1,
   (claim_c3_request_packet "ntp.nict.jp").2.2 5 (by decide) (by decide)⟩

/-- C8: if no datagram of at least 48 bytes arrives before the polling window
elapses, `get_ntp_time` returns `false` (timeout), leaves the by-reference
`result` variable unchanged, and its action sequence contains exactly one
request send (no internal retry). -/
theorem claim_c8_timeout (result0 : Nat) (server : String) (polls : List (List Nat))
    (h : ∀ p ∈ polls, p.length < NTP_PACKET_SIZE) :
    get_ntp_time result0 polls = (false, result0)
    ∧ (get_ntp_time_acts server polls).countP isSendAct = 1 := by
  refine ⟨get_ntp_time_timeout result0 polls h, ?_⟩
  simp [get_ntp_time_acts, List.countP_cons, ntp_poll_acts_no_send, isSendAct]

/-- C8 witness: two short polls, result variable 7 stays 7, one send. -/
theorem claim_c8_timeout_witness :
    get_ntp_time 7 [[1, 2, 3], []] = (false, 7)
    ∧ (get_ntp_time_acts "ntp.nict.jp" [[1, 2, 3], []]).countP isSendAct = 1 :=
  claim_c8_timeout 7 "ntp.nict.jp" [[1, 2, 3], []] (by decide)

/-- C1: for every reply datagram of at least 48 bytes, `get_ntp_time` accepts
it and returns the 32-bit big-endian value of bytes 40-43, incremented by one
when byte 44 ≥ 128, minus 2208988800 — all in `uint32_t` arithmetic
(mod `2 ^ 32`); when byte 44 ≥ 128 the result is exactly one greater (as a
`uint32_t`) than for the same seconds field with byte 44 = 0; in particular
for bytes 40-43 = `0x83AA7E80` and byte 44 = 0 the epoch is
`0x83AA7E80 - 2208988800`, and with byte 44 = `0xFF` it is one greater. -/
theorem claim_c1_decode (result0 : Nat) (p : List Nat)
    (hlen : NTP_PACKET_SIZE ≤ p.length) :
    (get_ntp_time result0 [p]).1 = true
    ∧ (get_ntp_time result0 [p]).2
        = (packet_byte p 40 * 2 ^ 24 + packet_byte p 41 * 2 ^ 16
            + packet_byte p 42 * 2 ^ 8 + packet_byte p 43
            + (if 0x80 ≤ packet_byte p 44 then 1 else 0) + (U32 - SEC_1970_TO_1900)) % U32
    ∧ (∀ q : List Nat, NTP_PACKET_SIZE ≤ q.length →
        packet_byte q 40 = packet_byte p 40 → packet_byte q 41 = packet_byte p 41 →
        packet_byte q 42 = packet_byte p 42 → packet_byte q 43 = packet_byte p 43 →
        packet_byte q 44 = 0 → 0x80 ≤ packet_byte p 44 →
        (get_ntp_time result0 [p]).2 = ((get_ntp_time result0 [q]).2 + 1) % U32)
    ∧ (get_ntp_time result0 [ntp_test_packet 0]).2 = 0x83AA7E80 - 2208988800
    ∧ (get_ntp_time result0 [ntp_test_packet 0xFF]).2 = 0x83AA7E80 - 2208988800 + 1 := by
  rw [get_ntp_time_accept result0 p hlen]
  refine ⟨rfl, ?_, ?_, rfl, rfl⟩
  · show ntp_epoch p = _
    unfold ntp_epoch rounded_secs
    rw [secsSince1900_eq_add]
    split
    · rw [Nat.mod_add_mod]
    · ring_nf
  · intro q hqlen h40 h41 h42 h43 h44 h128
    rw [get_ntp_time_accept result0 q hqlen]
    show ntp_epoch p = (ntp_epoch q + 1) % U32
    have hq44 : ¬ 0x80 ≤ packet_byte q 44 := by rw [h44]; omega
    have hsecs : secsSince1900 q = secsSince1900 p := by
      rw [secsSince1900_eq_add, secsSince1900_eq_add, h40, h41, h42, h43]
    unfold ntp_epoch rounded_secs
    rw [if_pos h128, if_neg hq44, hsecs, Nat.mod_add_mod, Nat.mod_add_mod]
    ring_nf

/-- C1 witness: concrete accepted reply with byte 44 = 0x90 ≥ 128, plus the
two concrete decode instances. -/
theorem claim_c1_decode_witness :
    (get_ntp_time 0 [ntp_test_packet 0x90]).1 = true
    ∧ (get_ntp_time 0 [ntp_test_packet 0]).2 = 0x83AA7E80 - 2208988800
    ∧ (get_ntp_time 0 [ntp_test_packet 0xFF]).2 = 0x83AA7E80 - 2208988800 + 1 :=
  ⟨(claim_c1_decode 0 (ntp_test_packet 0x90) (by decide)).1,
   (claim_c1_decode 0 (ntp_test_packet 0x90) (by decide)).2.2.2.1,
   (claim_c1_decode 0 (ntp_test_packet 0x90) (by decide)).2.2.2.2⟩

/-- C10: the epoch conversion is `uint32_t` modular arithmetic: for every
accepted reply the returned value plus 2208988800 is, mod `2 ^ 32`, the
(rounded) seconds-since-1900 field; and whenever that rounded field is below
2208988800, `get_ntp_time` still reports success and returns the
wrapped-around value `rounded + 2 ^ 32 - 2208988800` rather than an error. -/
theorem claim_c10_wraparound (result0 : Nat) (p : List Nat)
    (hlen : NTP_PACKET_SIZE ≤ p.length) :
    (get_ntp_time result0 [p]).1 = true
    ∧ ((get_ntp_time result0 [p]).2 + SEC_1970_TO_1900) % U32 = rounded_secs p
    ∧ (rounded_secs p < SEC_1970_TO_1900 →
        (get_ntp_time result0 [p]).2 = rounded_secs p + (U32 - SEC_1970_TO_1900)) := by
  rw [get_ntp_time_accept result0 p hlen]
  have hrs := rounded_secs_lt p
  refine ⟨rfl, ?_, ?_⟩
  · show (ntp_epoch p + SEC_1970_TO_1900) % U32 = rounded_secs p
    unfold ntp_epoch
    simp only [U32, SEC_1970_TO_1900] at *
    omega
  · intro hless
    show ntp_epoch p = rounded_secs p + (U32 - SEC_1970_TO_1900)
    unfold ntp_epoch
    simp only [U32, SEC_1970_TO_1900] at *
    omega

/-- C10 witness: a reply whose seconds field is 5 (before 1970) is accepted
and decodes to the wrapped value `5 + 2 ^ 32 - 2208988800`. -/
theorem claim_c10_wraparound_witness :
    (get_ntp_time 3 [(List.replicate 48 0).set 43 5]).1 = true
    ∧ (get_ntp_time 3 [(List.replicate 48 0).set 43 5]).2
        = 5 + (U32 - SEC_1970_TO_1900) := by
  have h := claim_c10_wraparound 3 ((List.replicate 48 0).set 43 5) (by decide)
  exact ⟨h.1, by rw [h.2.2 (by decide)]; decide⟩

/-- C2: if WiFi association has not succeeded at any sampled instant within
the 30000 ms window, the polling loop exits with the timeout flag set and the
sync attempt returns failure with an action sequence containing only the
single initial association request — no NTP fetch, no RTC write, no second
association attempt. -/
theorem claim_c2_assoc_timeout (env : SyncEnv) (epoch0 : Nat)
    (h : ∀ t, t ≤ WIFI_CONNECT_TIMEOUT_MS → env.statusAt t = false) :
    (wifi_wait env.statusAt 0).1 = true
    ∧ rtc_and_ntp_sync env epoch0 = (false, [SyncEv.evWifiBegin]) := by
  have hw : (wifi_wait env.statusAt 0).1 = true :=
    wifi_wait_timeout_of env.statusAt h WIFI_CONNECT_TIMEOUT_MS 0 (by omega) (by omega)
  refine ⟨hw, ?_⟩
  simp [rtc_and_ntp_sync, hw]

/-- C2 witness: a never-connecting WiFi environment. -/
theorem claim_c2_assoc_timeout_witness :
    (wifi_wait (fun _t => false) 0).1 = true
    ∧ rtc_and_ntp_sync ⟨fun _t => false, []⟩ 0 = (false, [SyncEv.evWifiBegin]) :=
  claim_c2_assoc_timeout ⟨fun _t => false, []⟩ 0 (fun _t _ht => rfl)

/-- C4: in every sync attempt in which association succeeded (the polling
loop exited without the timeout flag and the status re-check passed), the
WiFi-disconnect action is executed and is the last action before the attempt
returns — both when the time fetch (and RTC write) succeeded and when it
failed. -/
theorem claim_c4_disconnect (env : SyncEnv) (epoch0 : Nat)
    (hnt : (wifi_wait env.statusAt 0).1 = false)
    (hst : env.statusAt (wifi_wait env.statusAt 0).2 = true) :
    SyncEv.evWifiDisconnect ∈ (rtc_and_ntp_sync env epoch0).2
    ∧ (rtc_and_ntp_sync env epoch0).2.getLast? = some SyncEv.evWifiDisconnect := by
  simp only [rtc_and_ntp_sync, hnt, hst]
  cases hr : (get_ntp_time epoch0 env.polls).1 <;> simp [hr, List.getLast?]

/-- C4 witness: an immediately-connected environment whose fetch times out
(no datagrams): the attempt still ends with the disconnect action. -/
theorem claim_c4_disconnect_witness :
    SyncEv.evWifiDisconnect ∈ (rtc_and_ntp_sync ⟨fun _t => true, []⟩ 0).2
    ∧ (rtc_and_ntp_sync ⟨fun _t => true, []⟩ 0).2.getLast?
        = some SyncEv.evWifiDisconnect :=
  claim_c4_disconnect ⟨fun _t => true, []⟩ 0 (by rw [wifi_wait]; rfl) rfl

/-- C9: the marker comparison covers exactly the first 30 bytes of page 0 —
the 29 ASCII characters of "WIFI_CONFIG_SSID_AND_PASSWORD" followed by one
0x00 byte — so two page-0 contents that agree on their first 30 bytes (in
particular ones differing only at indices 30 and 31) give the same
`has_credentials` result, and a page 0 whose byte 29 is nonzero is reported
absent even when the 29 marker characters match. -/
theorem claim_c9_marker_scope :
    marker_cstr.length = E2P_WIFI_CONFIG_MAKER_LEN
    ∧ marker_cstr.getD 29 1 = 0
    ∧ marker_cstr.take 29 = p_e2p_wifi_config_maker.toList.map Char.toNat
    ∧ (∀ page0 page0' : List Nat,
        page0.take E2P_WIFI_CONFIG_MAKER_LEN = page0'.take E2P_WIFI_CONFIG_MAKER_LEN →
        has_credentials page0 = has_credentials page0')
    ∧ (∀ page0 : List Nat,
        page0.take 29 = p_e2p_wifi_config_maker.toList.map Char.toNat →
        page0.getD 29 0 ≠ 0 → has_credentials page0 = false) := by
  refine ⟨by decide, by decide, by decide, ?_, ?_⟩
  · intro page0 page0' h
    simp only [has_credentials, h]
  · intro page0 _h29 hnz
    simp only [has_credentials, decide_eq_false_iff_not]
    intro heq
    apply hnz
    have h1 : (page0.take E2P_WIFI_CONFIG_MAKER_LEN).getD 29 0 = page0.getD 29 0 := by
      rw [List.getD_eq_getElem?_getD, List.getD_eq_getElem?_getD,
        List.getElem?_take_of_lt (by simp only [E2P_WIFI_CONFIG_MAKER_LEN]; omega)]
    rw [← h1, heq]
    decide

/-- C9 witness: page-0 contents differing only at bytes 30-31 agree, and a
page matching the 29 marker characters but with byte 29 = 1 reads as
absent. -/
theorem claim_c9_marker_scope_witness :
    has_credentials (marker_cstr ++ [7, 8]) = has_credentials (marker_cstr ++ [9, 10])
    ∧ has_credentials ((p_e2p_wifi_config_maker.toList.map Char.toNat) ++ [1, 0, 0])
        = false :=
  ⟨claim_c9_marker_scope.2.2.2.1 _ _ (by decide),
   claim_c9_marker_scope.2.2.2.2 _ (by decide) (by decide)⟩

/-- C6 counterexample: after a successful save with over-read bytes 0, 0, the
stored page 0 is `marker_cstr ++ [0, 0]`; the 32-byte page
`marker_cstr ++ [0, 1]` differs from it (at index 31), yet `has_credentials`
still returns `true` — the claim demands `false` for every page 0 that
differs in any byte from the stored marker page content. -/
theorem claim_c6_counterexample :
    e2p_read_page (e2p_save_wifi_config (fun _a => true) 0 0 [65] [66] (fun _a => 0)).mem 0
      = marker_cstr ++ [0, 0]
    ∧ marker_cstr ++ [0, 1] ≠ marker_cstr ++ [0, 0]
    ∧ (marker_cstr ++ [0, 1]).length = 32
    ∧ has_credentials (marker_cstr ++ [0, 1]) = true := by
  decide

/-- C6 (amended): `has_credentials` (the credential-presence test) returns
true iff the first 30 bytes (marker length) of page 0 exactly match the fixed
marker string with its NUL terminator; any corruption confined to page-0
bytes 30-31 does not affect the result, and the contents of pages 1 and 2
never affect it. -/
theorem claim_c6_amended (mem mem' : Mem)
    (hpage0 : ∀ x, x < E2P_PAGE_BYTE_SIZE → mem x = mem' x) :
    ((e2p_check_wifi_config mem).isSome = true
      ↔ (e2p_read_page mem 0).take E2P_WIFI_CONFIG_MAKER_LEN = marker_cstr)
    ∧ (e2p_check_wifi_config mem).isSome = (e2p_check_wifi_config mem').isSome := by
  constructor
  · rw [check_isSome_eq mem]
    simp [has_credentials]
  · rw [check_isSome_eq mem, check_isSome_eq mem',
      e2p_read_page_congr_0 mem mem' hpage0]

/-- C6 amended witness: the two memories coincide on page 0, so presence
agrees; the all-zero memory has no marker. -/
theorem claim_c6_amended_witness :
    ((e2p_check_wifi_config (fun _a => 0)).isSome = true
      ↔ (e2p_read_page (fun _a => 0) 0).take E2P_WIFI_CONFIG_MAKER_LEN = marker_cstr)
    ∧ (e2p_check_wifi_config (fun _a => 0)).isSome
        = (e2p_check_wifi_config (fun _a => 0)).isSome :=
  claim_c6_amended (fun _a => 0) (fun _a => 0) (fun _x _hx => rfl)

/-- C5: for every identifier and passphrase of at most 31 bytes (bytes in the
C-string domain: nonzero and below 256), a fully successful
`e2p_save_wifi_config` followed by `e2p_check_wifi_config` (all page I/O
succeeding) returns exactly the identifier and passphrase written, the
trailing padding excluded. -/
theorem claim_c5_roundtrip (j1 j2 : Nat) (ssid password : List Nat) (mem : Mem)
    (hslen : ssid.length ≤ 31) (hplen : password.length ≤ 31)
    (hsb : ∀ b ∈ ssid, 0 < b ∧ b < 256) (hpb : ∀ b ∈ password, 0 < b ∧ b < 256) :
    (e2p_save_wifi_config (fun _a => true) j1 j2 ssid password mem).ok = true
    ∧ e2p_check_wifi_config
        (e2p_save_wifi_config (fun _a => true) j1 j2 ssid password mem).mem
      = some (ssid, password) := by
  obtain ⟨hok, hm0, hm1, hm2⟩ := save_allok j1 j2 ssid password mem
  refine ⟨hok, ?_⟩
  have hmlen : marker_cstr.length = 30 := by decide
  have htake : (e2p_read_page
      (e2p_save_wifi_config (fun _a => true) j1 j2 ssid password mem).mem 0).take
        E2P_WIFI_CONFIG_MAKER_LEN = marker_cstr := by
    apply readpage_take_marker
    intro i hi
    have hi32 : i < 32 := by simp only [E2P_WIFI_CONFIG_MAKER_LEN] at hi; omega
    rw [hm0 i hi32]
    have hleft : (marker_cstr ++ [j1, j2]).getD i 0 = marker_cstr.getD i 0 := by
      rw [List.getD_eq_getElem?_getD, List.getD_eq_getElem?_getD,
        List.getElem?_append_left (by simp only [E2P_WIFI_CONFIG_MAKER_LEN] at hi; omega)]
    rw [Nat.mod_mod_of_dvd _ (dvd_refl 256), hleft]
    have hb : marker_cstr.getD i 0 < 256 := by
      have hall : ∀ b ∈ marker_cstr, b < 256 := by decide
      have hilt : i < marker_cstr.length := by
        simp only [E2P_WIFI_CONFIG_MAKER_LEN] at hi; omega
      have hmem : marker_cstr.getD i 0 = marker_cstr[i] := by
        rw [List.getD_eq_getElem?_getD, List.getElem?_eq_getElem hilt]
        rfl
      rw [hmem]
      exact hall _ (List.getElem_mem hilt)
    exact Nat.mod_eq_of_lt hb
  have hcred : has_credentials (e2p_read_page
      (e2p_save_wifi_config (fun _a => true) j1 j2 ssid password mem).mem 0) = true := by
    simp [has_credentials, htake]
  have hrp1 : e2p_read_page
      (e2p_save_wifi_config (fun _a => true) j1 j2 ssid password mem).mem 1
      = pad_page ssid := by
    apply e2p_read_page_of
    · exact pad_page_length ssid
    · intro b hb
      simp only [pad_page] at hb
      rcases List.mem_append.mp hb with hbs | hbr
      · exact (hsb b (List.take_subset _ _ hbs)).2
      · have := List.eq_of_mem_replicate hbr
        omega
    · intro i hi
      have h32 : 1 * E2P_PAGE_BYTE_SIZE + i = 32 + i := by
        simp [E2P_PAGE_BYTE_SIZE]
      rw [h32]
      exact hm1 i (by simp only [E2P_PAGE_BYTE_SIZE] at hi; omega)
  have hrp2 : e2p_read_page
      (e2p_save_wifi_config (fun _a => true) j1 j2 ssid password mem).mem 2
      = pad_page password := by
    apply e2p_read_page_of
    · exact pad_page_length password
    · intro b hb
      simp only [pad_page] at hb
      rcases List.mem_append.mp hb with hbs | hbr
      · exact (hpb b (List.take_subset _ _ hbs)).2
      · have := List.eq_of_mem_replicate hbr
        omega
    · intro i hi
      have h64 : 2 * E2P_PAGE_BYTE_SIZE + i = 64 + i := by
        simp [E2P_PAGE_BYTE_SIZE]
      rw [h64]
      exact hm2 i (by simp only [E2P_PAGE_BYTE_SIZE] at hi; omega)
  have h31 : E2P_PAGE_BYTE_SIZE - 1 = 31 := by decide
  simp only [e2p_check_wifi_config, hcred, Bool.true_eq_false, if_false]
  rw [hrp1, hrp2, h31]
  rw [pad_page_eq ssid hslen, pad_page_eq password hplen]
  rw [set_pad_last ssid hslen, set_pad_last password hplen]
  rw [cstr_append_zeros ssid _ (fun b hb => by have := hsb b hb; omega),
    cstr_append_zeros password _ (fun b hb => by have := hpb b hb; omega)]

/-- C5 witness: the pair ("Hi", "PW") as byte lists round-trips through the
store. -/
theorem claim_c5_roundtrip_witness :
    (e2p_save_wifi_config (fun _a => true) 5 6 [72, 105] [80, 87] (fun _a => 0)).ok = true
    ∧ e2p_check_wifi_config
        (e2p_save_wifi_config (fun _a => true) 5 6 [72, 105] [80, 87] (fun _a => 0)).mem
      = some ([72, 105], [80, 87]) :=
  claim_c5_roundtrip 5 6 [72, 105] [80, 87] (fun _a => 0)
    (by decide) (by decide) (by decide) (by decide)

/-- C7: `e2p_save_wifi_config` writes page 0 (marker), then page 1 (id),
then page 2 (passphrase), in ascending byte-address order; a failed page
write reports failure at once, never attempts the remaining pages, leaves
them unmodified, and does not roll back the pages already written.  The four
conjuncts cover: full success (all 96 byte addresses attempted in order);
failure inside page 0 (pages 1-2 neither attempted nor modified); page 0 ok
but failure inside page 1 (failure reported, page 0 keeps its new marker
content, page 2 neither attempted nor modified); pages 0-1 ok but failure
inside page 2 (failure reported, pages 0 and 1 keep their new contents). -/
theorem claim_c7_write_order (wok : Nat → Bool) (j1 j2 : Nat) (ssid password : List Nat)
    (mem : Mem) :
    ((∀ a, a < 96 → wok a = true) →
      (e2p_save_wifi_config wok j1 j2 ssid password mem).ok = true
      ∧ (e2p_save_wifi_config wok j1 j2 ssid password mem).addrs = List.range' 0 96)
    ∧ ((∃ a, a < 32 ∧ wok a = false) →
      (e2p_save_wifi_config wok j1 j2 ssid password mem).ok = false
      ∧ (∀ x ∈ (e2p_save_wifi_config wok j1 j2 ssid password mem).addrs, x < 32)
      ∧ (∀ x, 32 ≤ x → (e2p_save_wifi_config wok j1 j2 ssid password mem).mem x = mem x))
    ∧ ((∀ a, a < 32 → wok a = true) → (∃ a, 32 ≤ a ∧ a < 64 ∧ wok a = false) →
      (e2p_save_wifi_config wok j1 j2 ssid password mem).ok = false
      ∧ (∀ i, i < 32 →
          (e2p_save_wifi_config wok j1 j2 ssid password mem).mem i
            = (marker_cstr ++ [j1, j2]).getD i 0 % 256)
      ∧ (∀ x ∈ (e2p_save_wifi_config wok j1 j2 ssid password mem).addrs, x < 64)
      ∧ (∀ x, 64 ≤ x → (e2p_save_wifi_config wok j1 j2 ssid password mem).mem x = mem x))
    ∧ ((∀ a, a < 64 → wok a = true) → (∃ a, 64 ≤ a ∧ a < 96 ∧ wok a = false) →
      (e2p_save_wifi_config wok j1 j2 ssid password mem).ok = false
      ∧ (∀ i, i < 32 →
          (e2p_save_wifi_config wok j1 j2 ssid password mem).mem i
            = (marker_cstr ++ [j1, j2]).getD i 0 % 256)
      ∧ (∀ i, i < 32 →
          (e2p_save_wifi_config wok j1 j2 ssid password mem).mem (32 + i)
            = (pad_page ssid).getD i 0 % 256)) := by
  have hd0 := marker_page_length j1 j2
  have hps : (pad_page ssid).length = 32 := pad_page_length ssid
  have hpp : (pad_page password).length = 32 := pad_page_length password
  refine ⟨?_, ?_, ?_, ?_⟩
  · intro hall
    have h0 : (e2p_write_byte wok 0 (marker_cstr ++ [j1, j2]) mem).ok = true :=
      (e2p_write_byte_ok_iff wok _ 0 mem).mpr
        (fun i hi => hall (0 + i) (by rw [hd0] at hi; omega))
    have h1 : (e2p_write_byte wok 32 (pad_page ssid)
        (e2p_write_byte wok 0 (marker_cstr ++ [j1, j2]) mem).mem).ok = true :=
      (e2p_write_byte_ok_iff wok _ 32 _).mpr
        (fun i hi => hall (32 + i) (by rw [hps] at hi; omega))
    have h2 : (e2p_write_byte wok 64 (pad_page password)
        (e2p_write_byte wok 32 (pad_page ssid)
          (e2p_write_byte wok 0 (marker_cstr ++ [j1, j2]) mem).mem).mem).ok = true :=
      (e2p_write_byte_ok_iff wok _ 64 _).mpr
        (fun i hi => hall (64 + i) (by rw [hpp] at hi; omega))
    rw [save_eq_of_ok01 wok j1 j2 ssid password mem h0 h1]
    refine ⟨h2, ?_⟩
    rw [e2p_write_byte_addrs_ok wok _ 0 mem
        (fun i hi => hall (0 + i) (by rw [hd0] at hi; omega)),
      e2p_write_byte_addrs_ok wok _ 32 _
        (fun i hi => hall (32 + i) (by rw [hps] at hi; omega)),
      e2p_write_byte_addrs_ok wok _ 64 _
        (fun i hi => hall (64 + i) (by rw [hpp] at hi; omega)),
      hd0, hps, hpp]
    show List.range' 0 32 ++ List.range' 32 32 ++ List.range' 64 32 = List.range' 0 96
    decide
  · rintro ⟨a, ha, haf⟩
    have h0 : (e2p_write_byte wok 0 (marker_cstr ++ [j1, j2]) mem).ok = false := by
      cases hok : (e2p_write_byte wok 0 (marker_cstr ++ [j1, j2]) mem).ok
      · rfl
      · have := (e2p_write_byte_ok_iff wok _ 0 mem).mp hok a (by rw [hd0]; omega)
        rw [Nat.zero_add, haf] at this
        exact absurd this (by simp)
    rw [save_eq_of_fail0 wok j1 j2 ssid password mem h0]
    refine ⟨rfl, ?_, ?_⟩
    · intro x hx
      have := e2p_write_byte_addrs_sub wok _ 0 mem x hx
      rw [hd0] at this
      omega
    · intro x hx
      exact e2p_write_byte_mem_outside wok _ 0 mem x (by rw [hd0]; omega)
  · intro h0all
    rintro ⟨a, ha1, ha2, haf⟩
    have h0 : (e2p_write_byte wok 0 (marker_cstr ++ [j1, j2]) mem).ok = true :=
      (e2p_write_byte_ok_iff wok _ 0 mem).mpr
        (fun i hi => h0all (0 + i) (by rw [hd0] at hi; omega))
    have h1 : (e2p_write_byte wok 32 (pad_page ssid)
        (e2p_write_byte wok 0 (marker_cstr ++ [j1, j2]) mem).mem).ok = false := by
      cases hok : (e2p_write_byte wok 32 (pad_page ssid)
          (e2p_write_byte wok 0 (marker_cstr ++ [j1, j2]) mem).mem).ok
      · rfl
      · have := (e2p_write_byte_ok_iff wok _ 32 _).mp hok (a - 32) (by rw [hps]; omega)
        have h32a : 32 + (a - 32) = a := by omega
        rw [h32a, haf] at this
        exact absurd this (by simp)
    rw [save_eq_of_fail1 wok j1 j2 ssid password mem h0 h1]
    refine ⟨rfl, ?_, ?_, ?_⟩
    · intro i hi
      show (e2p_write_byte wok 32 (pad_page ssid)
          (e2p_write_byte wok 0 (marker_cstr ++ [j1, j2]) mem).mem).mem i = _
      rw [e2p_write_byte_mem_outside wok _ 32 _ i (Or.inl (by omega))]
      have := e2p_write_byte_mem_ok wok (marker_cstr ++ [j1, j2]) 0 mem
        (fun k hk => h0all (0 + k) (by rw [hd0] at hk; omega)) i (by rw [hd0]; omega)
      simpa using this
    · intro x hx
      rcases List.mem_append.mp hx with hx | hx
      · have := e2p_write_byte_addrs_sub wok _ 0 mem x hx
        rw [hd0] at this
        omega
      · have := e2p_write_byte_addrs_sub wok _ 32 _ x hx
        rw [hps] at this
        omega
    · intro x hx
      show (e2p_write_byte wok 32 (pad_page ssid)
          (e2p_write_byte wok 0 (marker_cstr ++ [j1, j2]) mem).mem).mem x = mem x
      rw [e2p_write_byte_mem_outside wok _ 32 _ x (Or.inr (by rw [hps]; omega))]
      exact e2p_write_byte_mem_outside wok _ 0 mem x (Or.inr (by rw [hd0]; omega))
  · intro h0all
    rintro ⟨a, ha1, ha2, haf⟩
    have h0 : (e2p_write_byte wok 0 (marker_cstr ++ [j1, j2]) mem).ok = true :=
      (e2p_write_byte_ok_iff wok _ 0 mem).mpr
        (fun i hi => h0all (0 + i) (by rw [hd0] at hi; omega))
    have h1 : (e2p_write_byte wok 32 (pad_page ssid)
        (e2p_write_byte wok 0 (marker_cstr ++ [j1, j2]) mem).mem).ok = true :=
      (e2p_write_byte_ok_iff wok _ 32 _).mpr
        (fun i hi => h0all (32 + i) (by rw [hps] at hi; omega))
    have h2 : (e2p_write_byte wok 64 (pad_page password)
        (e2p_write_byte wok 32 (pad_page ssid)
          (e2p_write_byte wok 0 (marker_cstr ++ [j1, j2]) mem).mem).mem).ok = false := by
      cases hok : (e2p_write_byte wok 64 (pad_page password)
          (e2p_write_byte wok 32 (pad_page ssid)
            (e2p_write_byte wok 0 (marker_cstr ++ [j1, j2]) mem).mem).mem).ok
      · rfl
      · have := (e2p_write_byte_ok_iff wok _ 64 _).mp hok (a - 64) (by rw [hpp]; omega)
        have h64a : 64 + (a - 64) = a := by omega
        rw [h64a, haf] at this
        exact absurd this (by simp)
    rw [save_eq_of_ok01 wok j1 j2 ssid password mem h0 h1]
    refine ⟨h2, ?_, ?_⟩
    · intro i hi
      show (e2p_write_byte wok 64 (pad_page password)
          (e2p_write_byte wok 32 (pad_page ssid)
            (e2p_write_byte wok 0 (marker_cstr ++ [j1, j2]) mem).mem).mem).mem i = _
      rw [e2p_write_byte_mem_outside wok _ 64 _ i (Or.inl (by omega))]
      rw [e2p_write_byte_mem_outside wok _ 32 _ i (Or.inl (by omega))]
      have := e2p_write_byte_mem_ok wok (marker_cstr ++ [j1, j2]) 0 mem
        (fun k hk => h0all (0 + k) (by rw [hd0] at hk; omega)) i (by rw [hd0]; omega)
      simpa using this
    · intro i hi
      show (e2p_write_byte wok 64 (pad_page password)
          (e2p_write_byte wok 32 (pad_page ssid)
            (e2p_write_byte wok 0 (marker_cstr ++ [j1, j2]) mem).mem).mem).mem (32 + i)
        = _
      rw [e2p_write_byte_mem_outside wok _ 64 _ (32 + i) (Or.inl (by omega))]
      exact e2p_write_byte_mem_ok wok (pad_page ssid) 32 _
        (fun k hk => h0all (32 + k) (by rw [hps] at hk; omega)) i (by rw [hps]; omega)

/-- C7 witness: with I2C transactions succeeding only below address 40, the
save aborts inside page 1: failure is reported, yet page 0 keeps its freshly
written marker byte. -/
theorem claim_c7_write_order_witness :
    (e2p_save_wifi_config (fun a => decide (a < 40)) 1 2 [65] [66] (fun _a => 0)).ok = false
    ∧ (e2p_save_wifi_config (fun a => decide (a < 40)) 1 2 [65] [66] (fun _a => 0)).mem 0
        = (marker_cstr ++ [1, 2]).getD 0 0 % 256 := by
  have h := (claim_c7_write_order (fun a => decide (a < 40)) 1 2 [65] [66] (fun _a => 0)).2.2.1
    (fun a ha => by simp only [decide_eq_true_eq]; omega)
    ⟨40, by omega, by omega, by decide⟩
  exact ⟨h.1, h.2.1 0 (by omega)⟩

end RtcSyncPi
